import Mathlib

/-!
Shallow embedding of the `ExecutorManager` of the alto bundler
(`src/executor/executorManager.ts`) and proofs of the specification claims.

Conventions of the embedding:
* addresses, hashes and bigint quantities are `Nat` (the TS bigints here are
  non-negative: gas, nonces, fee caps, counters);
* side effects (mempool calls, monitor updates, events, metrics, logs) are
  reified as a `List Effect` returned by each operation, in program order;
* `async` steps that can reject are modelled with `Except String`;
* collaborator results (executor, RPC, gas oracle) are inputs of the
  modelled functions.
-/

namespace Alto

/-- The mutable EVM request carried by a `TransactionInfo`
(`transactionRequest` in the source). -/
structure TransactionRequest where
  gas : Nat
  nonce : Nat
  maxFeePerGas : Nat
  maxPriorityFeePerGas : Nat
  deriving DecidableEq, Repr

/-- A user operation as tracked by the executor (`UserOperationInfo`). -/
structure UserOpInfo where
  userOperationHash : Nat
  entryPoint : Nat
  firstSubmitted : Nat
  deriving DecidableEq, Repr

/-- An executor-owned broadcast transaction (`TransactionInfo`). -/
structure TransactionInfo where
  transactionHash : Nat
  previousTransactionHashes : List Nat
  transactionRequest : TransactionRequest
  userOperationInfos : List UserOpInfo
  executor : Nat
  lastReplaced : Nat
  timesPotentiallyIncluded : Nat
  deriving DecidableEq, Repr

/-- Reified side effects of the executor manager, in program order. -/
inductive Effect where
  | logPending (opHash : Nat)
  | metricOnChain (status : String) (count : Nat)
  | observeInclusionDuration (opHash : Nat)
  | removeSubmitted (opHash : Nat)
  | updateReputation (opHash : Nat) (accountDeployed : Bool)
  | emitIncludedOnChain (opHash : Nat)
  | emitExecutionReverted (opHash : Nat)
  | emitFailedOnChain (opHash : Nat)
  | setStatus (opHash : Nat) (status : String)
  | markWalletProcessed (executor : Nat)
  | callReplace (txHash : Nat) (reason : String)
  | checkFrontrun (opHash : Nat)
  | replaceSubmitted (opHash : Nat) (newTxHash : Nat)
  | metricReplaced (reason : String) (status : String)
  | logWarn (msg : String)
  | logInfo (msg : String)
  | removeProcessing (opHash : Nat)
  | addToMempool (opHash : Nat) (entryPoint : Nat)
  | markSubmitted (opHash : Nat) (txHash : Nat)
  | emitDropped (opHash : Nat)
  | startWatchingBlocks
  | metricSubmitted (status : String) (count : Nat)
  | metricBundlesSubmitted (status : String)
  | metricResubmitted
  deriving DecidableEq, Repr

/-- Result of the gas-price oracle (`gasPriceManager.getGasPrice()`). -/
structure GasPriceParameters where
  maxFeePerGas : Nat
  maxPriorityFeePerGas : Nat
  deriving DecidableEq, Repr

/-- The per-transaction body of the gas-price replacement pass of
`handleBlock` (executorManager.ts lines 884-897): skip the transaction when
both fee fields are at least the oracle's values, otherwise call
`replaceTransaction` with reason `"gas_price"`. -/
def gasPriceCheck (gp : GasPriceParameters) (t : TransactionInfo) : List Effect :=
  if t.transactionRequest.maxFeePerGas ≥ gp.maxFeePerGas ∧
      t.transactionRequest.maxPriorityFeePerGas ≥ gp.maxPriorityFeePerGas then
    []
  else
    [Effect.callReplace t.transactionHash "gas_price"]

/-- Result of `Executor.replaceTransaction` (`ReplaceTransactionResult`). -/
inductive ReplaceStatus where
  | failed
  | potentiallyAlreadyIncluded
  | replaced (transactionInfo : TransactionInfo)
  deriving DecidableEq, Repr

/-- The `status` tag of a `ReplaceTransactionResult`. -/
def replaceStatusTag : ReplaceStatus → String
  | .failed => "failed"
  | .potentiallyAlreadyIncluded => "potentially_already_included"
  | .replaced _ => "replaced"

/-- The user-operation hashes carried by a transaction
(`newTxInfo.userOperationInfos.map((ni) => ni.userOperationHash)`). -/
def opHashesOf (t : TransactionInfo) : List Nat :=
  t.userOperationInfos.map (·.userOperationHash)

/-- `missingOps` of `replaceTransaction`: ops of the old transaction whose
hash does not occur in the new transaction. -/
def missingOps (t newT : TransactionInfo) : List UserOpInfo :=
  t.userOperationInfos.filter fun o =>
    !((opHashesOf newT).contains o.userOperationHash)

/-- `matchingOps` of `replaceTransaction`: ops of the old transaction whose
hash occurs in the new transaction. -/
def matchingOps (t newT : TransactionInfo) : List UserOpInfo :=
  t.userOperationInfos.filter fun o =>
    (opHashesOf newT).contains o.userOperationHash

/-- `replaceTransaction(txInfo, reason)` (executorManager.ts lines 916-1002).
The executor call is an input; its rejection is re-raised after the
`finally` metric (third component `some e`).  Returns the updated
`txInfo`, the effect list, and the propagated error if any. -/
def replaceTransaction (t : TransactionInfo) (reason : String)
    (executorResult : Except String ReplaceStatus) :
    TransactionInfo × List Effect × Option String :=
  match executorResult with
  | .error e => (t, [Effect.metricReplaced reason "failed"], some e)
  | .ok res =>
    let metric := Effect.metricReplaced reason (replaceStatusTag res)
    match res with
    | .failed =>
        (t, metric ::
          (t.userOperationInfos.map fun o => Effect.removeSubmitted o.userOperationHash) ++
          [Effect.logWarn "failed to replace transaction"], none)
    | .potentiallyAlreadyIncluded =>
        let t' := { t with timesPotentiallyIncluded := t.timesPotentiallyIncluded + 1 }
        (t', metric :: Effect.logInfo "transaction potentially already included" ::
          (if t'.timesPotentiallyIncluded ≥ 3 then
            (t.userOperationInfos.map fun o => Effect.removeSubmitted o.userOperationHash) ++
            [Effect.markWalletProcessed t.executor,
             Effect.logWarn "transaction potentially already included too many times, removing"]
          else []), none)
    | .replaced newT =>
        (t, metric ::
          ((matchingOps t newT).map fun o =>
            Effect.replaceSubmitted o.userOperationHash newT.transactionHash) ++
          ((missingOps t newT).flatMap fun o =>
            [Effect.removeSubmitted o.userOperationHash, Effect.logWarn "missing op in new tx"]) ++
          [Effect.logInfo "replaced transaction"], none)

/-- Per-op outcome inside an included bundle
(`userOperationDetails[userOpHash]`); the `"succesful"` misspelling is the
collaborator's contract. -/
structure UserOpDetail where
  status : String
  accountDeployed : Bool
  revertReason : Option String

/-- Result of `getBundleStatus` for one candidate hash. -/
inductive BundlingStatus where
  | notFound
  | included (userOperationDetails : Nat → UserOpDetail)
  | reverted (isAA95 : Bool) (reason : Option String)

/-- The `status` string of a `BundlingStatus`. -/
def bundlingStatusTag : BundlingStatus → String
  | .notFound => "not_found"
  | .included _ => "included"
  | .reverted _ _ => "reverted"

/-- `bundlingStatus.status === "included"`. -/
def isIncludedStatus : BundlingStatus → Bool
  | .included _ => true
  | _ => false

/-- `bundlingStatus.status === "reverted"`. -/
def isRevertedStatus : BundlingStatus → Bool
  | .reverted _ _ => true
  | _ => false

/-- `reason?.includes("AA25")` — substring test on the optional revert
reason. -/
def containsSeq (needle hay : List Char) : Bool :=
  hay.tails.any fun t => needle.isPrefixOf t

/-- Whether the revert reason mentions `"AA25"`. -/
def mentionsAA25 : Option String → Bool
  | none => false
  | some s => containsSeq "AA25".toList s.toList

/-- `txHashesToCheck = [currentTransactionHash, ...previousTransactionHashes]`. -/
def txHashesToCheck (t : TransactionInfo) : List Nat :=
  t.transactionHash :: t.previousTransactionHashes

/-- `transactionDetails`: each candidate hash paired with its
`getBundleStatus` result (the RPC is an input `statusOf`). -/
def transactionDetails (statusOf : Nat → BundlingStatus) (t : TransactionInfo) :
    List (Nat × BundlingStatus) :=
  (txHashesToCheck t).map fun h => (h, statusOf h)

/-- `finalizedTransaction = mined ?? reverted`: the first candidate whose
status is `included`, else the first whose status is `reverted`. -/
def finalizedTransaction (statusOf : Nat → BundlingStatus) (t : TransactionInfo) :
    Option (Nat × BundlingStatus) :=
  ((transactionDetails statusOf t).find? fun d => isIncludedStatus d.2).orElse
    fun _ => (transactionDetails statusOf t).find? fun d => isRevertedStatus d.2

/-- The branch of `refreshTransactionStatus` taken once a finalized
transaction is selected (executorManager.ts lines 435-546): the
`userOperationsOnChain` metric, then the included / AA95 / AA25 / other
reverted handling. -/
def refreshAct (aa95ResubmitMultiplier : Nat) (t : TransactionInfo)
    (bs : BundlingStatus) : TransactionInfo × List Effect :=
  let base := Effect.metricOnChain (bundlingStatusTag bs) t.userOperationInfos.length
  match bs with
  | .included details =>
      (t, base :: (t.userOperationInfos.flatMap fun o =>
          [Effect.observeInclusionDuration o.userOperationHash,
           Effect.removeSubmitted o.userOperationHash,
           Effect.updateReputation o.userOperationHash
             (details o.userOperationHash).accountDeployed,
           (if (details o.userOperationHash).status == "succesful" then
             Effect.emitIncludedOnChain o.userOperationHash
           else
             Effect.emitExecutionReverted o.userOperationHash),
           Effect.setStatus o.userOperationHash "included"]) ++
        [Effect.markWalletProcessed t.executor])
  | .reverted isAA95 reason =>
    if isAA95 then
      ({ t with transactionRequest := { t.transactionRequest with
            gas := t.transactionRequest.gas * aa95ResubmitMultiplier / 100,
            nonce := t.transactionRequest.nonce + 1 } },
       base :: (t.userOperationInfos.map fun o =>
            Effect.removeSubmitted o.userOperationHash) ++
          [Effect.callReplace t.transactionHash "AA95"])
    else if mentionsAA25 reason then
      (t, base :: t.userOperationInfos.map fun o =>
            Effect.checkFrontrun o.userOperationHash)
    else
      (t, base :: (t.userOperationInfos.flatMap fun o =>
          [Effect.removeSubmitted o.userOperationHash,
           Effect.setStatus o.userOperationHash "rejected",
           Effect.emitFailedOnChain o.userOperationHash]) ++
        [Effect.markWalletProcessed t.executor])
  | .notFound => (t, [base])

/-- `refreshTransactionStatus(entryPoint, transactionInfo)`
(executorManager.ts lines 377-547): candidate composition, per-candidate
status resolution, `included`-over-`reverted` selection, and the selected
branch; with no finalized candidate each op is logged as pending and
nothing changes. -/
def refreshTransactionStatus (aa95ResubmitMultiplier : Nat)
    (statusOf : Nat → BundlingStatus) (t : TransactionInfo) :
    TransactionInfo × List Effect :=
  match finalizedTransaction statusOf t with
  | none => (t, t.userOperationInfos.map fun o => Effect.logPending o.userOperationHash)
  | some (_, bundlingStatus) => refreshAct aa95ResubmitMultiplier t bundlingStatus

/-- The executor-manager state touched by `handleBlock`. -/
structure ManagerState where
  currentlyHandlingBlock : Bool
  watchingBlocks : Bool
  deriving DecidableEq, Repr

/-- The awaited collaborator outcomes of one block tick, each of which can
reject: the status refresh, the gas-price fetch, and the two replacement
passes (`Promise.all` of `replaceTransaction` calls). -/
structure BlockTickEnv where
  submittedOps : List Nat
  refreshOutcome : Except String Unit
  gasPriceOutcome : Except String GasPriceParameters
  gasReplaceOutcome : Except String Unit
  stuckReplaceOutcome : Except String Unit

/-- `handleBlock(block)` (executorManager.ts lines 854-914): the
reentrancy guard, the empty-mempool early exit, and the awaited steps in
program order.  A rejection of an awaited step propagates out of the
async function (there is no try/catch), skipping the final
`currentlyHandlingBlock = false` assignment. -/
def handleBlock (st : ManagerState) (env : BlockTickEnv) :
    ManagerState × Except String Unit :=
  if st.currentlyHandlingBlock then
    (st, .ok ())
  else
    let st1 : ManagerState := { st with currentlyHandlingBlock := true }
    if env.submittedOps.isEmpty then
      ({ st1 with watchingBlocks := false, currentlyHandlingBlock := false }, .ok ())
    else
      match env.refreshOutcome with
      | .error e => (st1, .error e)
      | .ok _ =>
        match env.gasPriceOutcome with
        | .error e => (st1, .error e)
        | .ok _ =>
          match env.gasReplaceOutcome with
          | .error e => (st1, .error e)
          | .ok _ =>
            match env.stuckReplaceOutcome with
            | .error e => (st1, .error e)
            | .ok _ => ({ st1 with currentlyHandlingBlock := false }, .ok ())

/-- One entry of the flattened executor result list (`BundleResult`). -/
inductive BundleResult where
  | success (opHash : Nat) (txHash : Nat)
  | failure (opHash : Nat) (reason : String)
  | resubmit (opHash : Nat) (entryPoint : Nat) (reason : String)
  deriving DecidableEq, Repr

/-- `result.status === "success"`. -/
def isSuccessResult : BundleResult → Bool
  | .success _ _ => true
  | _ => false

/-- The transaction hash carried by a `success` result. -/
def successTxHash : BundleResult → Option Nat
  | .success _ h => some h
  | _ => none

/-- The per-result effects of the dispatch loop of `sendToExecutor`
(executorManager.ts lines 218-283). -/
def resultEffects : BundleResult → List Effect
  | .success opHash txHash =>
      [Effect.markSubmitted opHash txHash,
       Effect.setStatus opHash "submitted",
       Effect.startWatchingBlocks,
       Effect.metricSubmitted "success" 1]
  | .failure opHash _ =>
      [Effect.removeProcessing opHash,
       Effect.emitDropped opHash,
       Effect.setStatus opHash "rejected",
       Effect.logWarn "user operation rejected",
       Effect.metricSubmitted "failed" 1]
  | .resubmit opHash entryPoint _ =>
      [Effect.logInfo "resubmitting user operation",
       Effect.removeProcessing opHash,
       Effect.addToMempool opHash entryPoint,
       Effect.metricResubmitted]

/-- The `for (const result of results)` loop of `sendToExecutor`: `acc`
is the running `txHash` variable, overwritten by each `success` result. -/
def sendLoop (acc : Option Nat) : List BundleResult → Option Nat × List Effect
  | [] => (acc, [])
  | r :: rest =>
    let acc' := match r with
      | .success _ h => some h
      | _ => acc
    let res := sendLoop acc' rest
    (res.1, resultEffects r ++ res.2)

/-- `sendToExecutor(entryPoint, mempoolOps)` from the executor results
onward (the executor calls are inputs `bundles`, one result list per
`bundle`/`bundleCompressed` call): per-bundle `bundlesSubmitted` metrics,
the filtered-out metric against the supplied op count, then the result
loop; returns the last successful transaction hash (or `none`). -/
def sendToExecutor (opsCount : Nat) (bundles : List (List BundleResult)) :
    Option Nat × List Effect :=
  let bundleMetrics := bundles.map fun b =>
    Effect.metricBundlesSubmitted (if b.all isSuccessResult then "success" else "failed")
  let results := bundles.flatten
  let filteredMetrics :=
    if opsCount - results.length > 0 then
      [Effect.metricSubmitted "filtered" (opsCount - results.length)]
    else []
  let looped := sendLoop none results
  (looped.1, bundleMetrics ++ filteredMetrics ++ looped.2)

/-- The per-entry-point outcome inside `bundleNow` (executorManager.ts
lines 151-157): `sendToExecutor`, then `throw new Error("no tx hash")`
when it returned no transaction hash. -/
def bundleNowEntryPointOutcome (opsCount : Nat)
    (bundles : List (List BundleResult)) : Except String Nat :=
  match (sendToExecutor opsCount bundles).1 with
  | none => .error "no tx hash"
  | some h => .ok h

/-- The grouping `opEntryPointMap.get(entryPoint)` of `bundle()` and
`bundleNow()`: the ops of a batch whose own entry-point address equals
`ep`, in order. -/
def opsForEntryPoint (ops : List UserOpInfo) (ep : Nat) : List UserOpInfo :=
  ops.filter fun o => o.entryPoint == ep

/-- Reified dispatch decisions of one batch of the bundling loop. -/
inductive DispatchEffect where
  | dispatched (entryPoint : Nat) (sent : List UserOpInfo)
  | warnNoOps (entryPoint : Nat)
  deriving DecidableEq, Repr

/-- One batch of the bundling loop (`bundle()` lines 319-334 and
`bundleNow()` lines 147-165): iterate the configured entry points; an
entry point with ops dispatches them to `sendToExecutor`, one without
logs a warning naming only the entry point. -/
def dispatchTick (entryPoints : List Nat) (ops : List UserOpInfo) :
    List DispatchEffect :=
  entryPoints.map fun ep =>
    let eps := opsForEntryPoint ops ep
    if eps.isEmpty then DispatchEffect.warnNoOps ep
    else DispatchEffect.dispatched ep eps

/-- `bundle()` over its batches: every batch is partitioned and
dispatched the same way. -/
def bundleTick (entryPoints : List Nat) (batches : List (List UserOpInfo)) :
    List DispatchEffect :=
  batches.flatMap fun ops => dispatchTick entryPoints ops

/-- A receipt log as scanned by `getUserOperationReceipt`: its topic list
(`topics[0]` the event signature, `topics[1]` the indexed user-op hash),
emitting address, and data. -/
structure RLog where
  topics : List Nat
  address : Nat
  data : Nat
  deriving DecidableEq, Repr

/-- The `logs.forEach` index scan of `getUserOperationReceipt`
(executorManager.ts lines 747-775), restricted to the `startIndex` /
`endIndex` state: a `UserOperationEvent` log with our hash sets
`endIndex := i`; one with a different hash sets `startIndex := i` but
only while `endIndex` is still `-1`. -/
def scanAux (opTopic ourHash : Nat) : Nat → Int → Int → List RLog → Int × Int
  | _, si, ei, [] => (si, ei)
  | i, si, ei, l :: rest =>
    if l.topics.head? == some opTopic then
      if l.topics[1]? == some ourHash then
        scanAux opTopic ourHash (i + 1) si ((i : Int)) rest
      else if ei == -1 then
        scanAux opTopic ourHash (i + 1) (i : Int) ei rest
      else
        scanAux opTopic ourHash (i + 1) si ei rest
    else
      scanAux opTopic ourHash (i + 1) si ei rest

/-- `(startIndex, endIndex)` after the scan, both starting at `-1`. -/
def scanIndices (opTopic ourHash : Nat) (logs : List RLog) : Int × Int :=
  scanAux opTopic ourHash 0 (-1) (-1) logs

/-- `logs.slice(startIndex + 1, endIndex)` — the logs attributed to the
user operation. -/
def filteredLogs (opTopic ourHash : Nat) (logs : List RLog) : List RLog :=
  (logs.take (scanIndices opTopic ourHash logs).2.toNat).drop
    ((scanIndices opTopic ourHash logs).1 + 1).toNat

/-- A `UserOperationEvent` log carrying the queried user-op hash. -/
def isOurEvent (opTopic ourHash : Nat) (l : RLog) : Bool :=
  l.topics.head? == some opTopic && l.topics[1]? == some ourHash

/-- A `UserOperationEvent` log carrying a different user-op hash. -/
def isOtherOpEvent (opTopic ourHash : Nat) (l : RLog) : Bool :=
  l.topics.head? == some opTopic && !(l.topics[1]? == some ourHash)

/-- Modelled from the spec wording of the slice bounds: the index of the
most recent `UserOperationEvent` with a different hash among the scanned
prefix, `-1` when there is none.  Compared with the code's `scanIndices`
in the refinement theorem. -/
def lastOtherOpIndex (opTopic ourHash : Nat) : Nat → Int → List RLog → Int
  | _, acc, [] => acc
  | i, acc, l :: rest =>
      lastOtherOpIndex opTopic ourHash (i + 1)
        (if isOtherOpEvent opTopic ourHash l then (i : Int) else acc) rest

/-- The transaction-receipt fields used by the effective-gas-price
back-fill; `gasPrice` models the raw `(transactionReceipt as any).gasPrice`
field. -/
structure TransactionReceiptM where
  effectiveGasPrice : Option Nat
  gasPrice : Option Nat
  status : Bool
  deriving DecidableEq, Repr

/-- The transaction fields used by `getTransaction` fallback. -/
structure TransactionM where
  gasPrice : Option Nat
  deriving DecidableEq, Repr

/-- Outcome of one `publicClient.getTransactionReceipt` call:
`TransactionReceiptNotFoundError`, some other error, or a receipt. -/
inductive ReceiptCallResult where
  | notFound
  | failure (e : String)
  | found (r : TransactionReceiptM)
  deriving DecidableEq, Repr

/-- The `getTransactionReceipt` retry loop of `getUserOperationReceipt`
(executorManager.ts lines 681-716): `continue` on the not-found error and
only on it, re-raise any other error; on a receipt, compute
`effectiveGasPrice ?? gasPrice ?? undefined`, falling back to
`getTransaction().gasPrice` when undefined, and write the value onto the
receipt when it is truthy (non-zero).  Successive call outcomes are the
input list; `none` means every supplied outcome was `notFound` (the loop
is still retrying). -/
def fetchReceipt (getTx : Except String TransactionM) :
    List ReceiptCallResult → Option (Except String TransactionReceiptM)
  | [] => none
  | .notFound :: rest => fetchReceipt getTx rest
  | .failure e :: _ => some (.error e)
  | .found r :: _ =>
    match r.effectiveGasPrice with
    | some v => some (.ok (if v != 0 then { r with effectiveGasPrice := some v } else r))
    | none =>
      match r.gasPrice with
      | some v => some (.ok (if v != 0 then { r with effectiveGasPrice := some v } else r))
      | none =>
        match getTx with
        | .error e => some (.error e)
        | .ok tx =>
          match tx.gasPrice with
          | some v =>
              some (.ok (if v != 0 then { r with effectiveGasPrice := some v } else r))
          | none => some (.ok r)

end Alto

namespace Alto

/-- Claim C2: in the gas-price replacement pass of a block tick, a
transaction still in `submitted` is replaced with reason `"gas_price"`
exactly when its `maxFeePerGas` is strictly below the oracle's
`maxFeePerGas` or its `maxPriorityFeePerGas` is strictly below the
oracle's `maxPriorityFeePerGas`; when both fee fields are at least the
oracle's values nothing happens (equality does not trigger). -/
theorem gasPriceCheck_replaces_iff (gp : GasPriceParameters) (t : TransactionInfo) :
    (gasPriceCheck gp t = [Effect.callReplace t.transactionHash "gas_price"] ↔
      t.transactionRequest.maxFeePerGas < gp.maxFeePerGas ∨
      t.transactionRequest.maxPriorityFeePerGas < gp.maxPriorityFeePerGas) ∧
    (gasPriceCheck gp t = [] ↔
      gp.maxFeePerGas ≤ t.transactionRequest.maxFeePerGas ∧
      gp.maxPriorityFeePerGas ≤ t.transactionRequest.maxPriorityFeePerGas) := by
  constructor
  · constructor
    · intro hc
      by_contra hno
      push_neg at hno
      simp only [gasPriceCheck] at hc
      rw [if_pos (by omega)] at hc
      exact absurd hc (by simp)
    · intro hlt
      simp only [gasPriceCheck]
      rw [if_neg (by omega)]
  · constructor
    · intro hc
      by_contra hno
      push_neg at hno
      simp only [gasPriceCheck] at hc
      rw [if_neg (by omega)] at hc
      exact absurd hc (by simp)
    · intro hge
      simp only [gasPriceCheck]
      rw [if_pos (by omega)]

/-- Claim C4: when `replaceTransaction` gets executor result
`replaced(newTxInfo)`, the computed `matchingOps` and `missingOps` form a
partition of `txInfo.userOperationInfos` (by user-operation hash membership
in the new transaction's ops); every matching op has its submission
replaced in the mempool to reference the new transaction and every missing
op is removed from the submitted set. -/
theorem replaceTransaction_replaced_partition (t newT : TransactionInfo) (reason : String) :
    (∀ o, o ∈ t.userOperationInfos ↔
      (o ∈ matchingOps t newT ∨ o ∈ missingOps t newT)) ∧
    (∀ o, ¬(o ∈ matchingOps t newT ∧ o ∈ missingOps t newT)) ∧
    (∀ o ∈ matchingOps t newT,
      Effect.replaceSubmitted o.userOperationHash newT.transactionHash ∈
        (replaceTransaction t reason (.ok (.replaced newT))).2.1) ∧
    (∀ o ∈ missingOps t newT,
      Effect.removeSubmitted o.userOperationHash ∈
        (replaceTransaction t reason (.ok (.replaced newT))).2.1) := by
  refine ⟨?_, ?_, ?_, ?_⟩
  · intro o
    constructor
    · intro ho
      by_cases hc : (opHashesOf newT).contains o.userOperationHash
      · exact Or.inl (List.mem_filter.mpr ⟨ho, hc⟩)
      · exact Or.inr (List.mem_filter.mpr ⟨ho, by simpa using hc⟩)
    · intro ho
      rcases ho with h | h
      · exact (List.mem_filter.mp h).1
      · exact (List.mem_filter.mp h).1
  · intro o ⟨hm, hn⟩
    have h1 := (List.mem_filter.mp hm).2
    have h2 := (List.mem_filter.mp hn).2
    simp only [Bool.not_eq_true'] at h2
    rw [h1] at h2
    exact absurd h2 (by simp)
  · intro o ho
    have hmem : Effect.replaceSubmitted o.userOperationHash newT.transactionHash ∈
        (matchingOps t newT).map (fun o =>
          Effect.replaceSubmitted o.userOperationHash newT.transactionHash) :=
      List.mem_map.mpr ⟨o, ho, rfl⟩
    simp only [replaceTransaction, List.mem_cons, List.mem_append]
    tauto
  · intro o ho
    have hmem : Effect.removeSubmitted o.userOperationHash ∈
        (missingOps t newT).flatMap (fun o =>
          [Effect.removeSubmitted o.userOperationHash, Effect.logWarn "missing op in new tx"]) :=
      List.mem_flatMap.mpr ⟨o, ho, by simp⟩
    simp only [replaceTransaction, List.mem_cons, List.mem_append]
    tauto

/-- Witness for C4 at a concrete pair of transactions: with old ops having
hashes 1 and 2 and the new transaction keeping only hash 1, op 1 is
replaced and op 2 is removed. -/
theorem replaceTransaction_replaced_partition_witness :
    (Effect.replaceSubmitted 1 50 ∈
      (replaceTransaction
        { transactionHash := 40, previousTransactionHashes := [],
          transactionRequest := ⟨100, 0, 0, 0⟩,
          userOperationInfos := [⟨1, 10, 0⟩, ⟨2, 10, 0⟩],
          executor := 7, lastReplaced := 0, timesPotentiallyIncluded := 0 }
        "stuck"
        (.ok (.replaced
          { transactionHash := 50, previousTransactionHashes := [40],
            transactionRequest := ⟨100, 0, 0, 0⟩,
            userOperationInfos := [⟨1, 10, 0⟩],
            executor := 7, lastReplaced := 5, timesPotentiallyIncluded := 0 }))).2.1) ∧
    (Effect.removeSubmitted 2 ∈
      (replaceTransaction
        { transactionHash := 40, previousTransactionHashes := [],
          transactionRequest := ⟨100, 0, 0, 0⟩,
          userOperationInfos := [⟨1, 10, 0⟩, ⟨2, 10, 0⟩],
          executor := 7, lastReplaced := 0, timesPotentiallyIncluded := 0 }
        "stuck"
        (.ok (.replaced
          { transactionHash := 50, previousTransactionHashes := [40],
            transactionRequest := ⟨100, 0, 0, 0⟩,
            userOperationInfos := [⟨1, 10, 0⟩],
            executor := 7, lastReplaced := 5, timesPotentiallyIncluded := 0 }))).2.1) := by
  constructor
  · exact (replaceTransaction_replaced_partition _ _ "stuck").2.2.1 ⟨1, 10, 0⟩ (by decide)
  · exact (replaceTransaction_replaced_partition _ _ "stuck").2.2.2 ⟨2, 10, 0⟩ (by decide)

/-- Claim C5: on executor result `potentially_already_included`,
`replaceTransaction` increments `timesPotentiallyIncluded` by exactly one;
the ops are removed from the submitted set and the wallet marked processed
exactly when the post-increment counter reaches 3; on the first and second
occurrence only the counter, the metric and a log change and no error is
raised. -/
theorem replaceTransaction_potentially_included (t : TransactionInfo) (reason : String)
    (h : t.timesPotentiallyIncluded ≤ 2) :
    (replaceTransaction t reason (.ok .potentiallyAlreadyIncluded)).1.timesPotentiallyIncluded =
      t.timesPotentiallyIncluded + 1 ∧
    (Effect.markWalletProcessed t.executor ∈
        (replaceTransaction t reason (.ok .potentiallyAlreadyIncluded)).2.1 ↔
      t.timesPotentiallyIncluded + 1 = 3) ∧
    (∀ o ∈ t.userOperationInfos,
      (Effect.removeSubmitted o.userOperationHash ∈
          (replaceTransaction t reason (.ok .potentiallyAlreadyIncluded)).2.1 ↔
        t.timesPotentiallyIncluded + 1 = 3)) ∧
    (t.timesPotentiallyIncluded + 1 < 3 →
      (replaceTransaction t reason (.ok .potentiallyAlreadyIncluded)).2.1 =
        [Effect.metricReplaced reason "potentially_already_included",
         Effect.logInfo "transaction potentially already included"]) ∧
    (replaceTransaction t reason (.ok .potentiallyAlreadyIncluded)).2.2 = none ∧
    (replaceTransaction t reason (.ok .potentiallyAlreadyIncluded)).1.transactionRequest =
      t.transactionRequest := by
  by_cases h3 : t.timesPotentiallyIncluded + 1 ≥ 3
  · have heq : t.timesPotentiallyIncluded + 1 = 3 := by omega
    refine ⟨rfl, ?_, ?_, ?_, rfl, rfl⟩
    · simp [replaceTransaction, replaceStatusTag, if_pos h3, heq]
    · intro o ho
      have hmem : Effect.removeSubmitted o.userOperationHash ∈
          t.userOperationInfos.map (fun o => Effect.removeSubmitted o.userOperationHash) :=
        List.mem_map.mpr ⟨o, ho, rfl⟩
      simp only [replaceTransaction, replaceStatusTag, if_pos h3, heq,
        List.mem_cons, List.mem_append]
      simp [hmem]
    · intro hlt
      omega
  · refine ⟨rfl, ?_, ?_, ?_, rfl, rfl⟩
    · simp only [replaceTransaction, replaceStatusTag, if_neg h3]
      simp only [List.mem_cons, List.not_mem_nil]
      constructor
      · intro hc
        simp at hc
      · intro heq
        omega
    · intro o ho
      simp only [replaceTransaction, replaceStatusTag, if_neg h3]
      simp only [List.mem_cons, List.not_mem_nil]
      constructor
      · intro hc
        simp at hc
      · intro heq
        omega
    · intro _
      simp only [replaceTransaction, replaceStatusTag, if_neg h3]

/-- Witness for C5 at a concrete transaction with counter 1: the counter
becomes 2 and nothing is removed. -/
theorem replaceTransaction_potentially_included_witness :
    (replaceTransaction
      { transactionHash := 40, previousTransactionHashes := [],
        transactionRequest := ⟨100, 0, 0, 0⟩,
        userOperationInfos := [⟨1, 10, 0⟩],
        executor := 7, lastReplaced := 0, timesPotentiallyIncluded := 1 }
      "stuck" (.ok .potentiallyAlreadyIncluded)).1.timesPotentiallyIncluded = 2 ∧
    (replaceTransaction
      { transactionHash := 40, previousTransactionHashes := [],
        transactionRequest := ⟨100, 0, 0, 0⟩,
        userOperationInfos := [⟨1, 10, 0⟩],
        executor := 7, lastReplaced := 0, timesPotentiallyIncluded := 1 }
      "stuck" (.ok .potentiallyAlreadyIncluded)).2.1 =
      [Effect.metricReplaced "stuck" "potentially_already_included",
       Effect.logInfo "transaction potentially already included"] := by
  have h := replaceTransaction_potentially_included
    { transactionHash := 40, previousTransactionHashes := [],
      transactionRequest := ⟨100, 0, 0, 0⟩,
      userOperationInfos := [⟨1, 10, 0⟩],
      executor := 7, lastReplaced := 0, timesPotentiallyIncluded := 1 }
    "stuck" (by decide)
  exact ⟨h.1, h.2.2.2.1 (by decide)⟩

/-- Claim C1 (code bug): at a tick where the guard is clear, one op is
submitted and the awaited status refresh rejects, `handleBlock`
propagates the error and leaves `currentlyHandlingBlock` true (there is
no try/catch and the trailing `currentlyHandlingBlock = false` is
skipped); the claim's guarded-entry and empty/normal completion parts do
hold, as the remaining conjuncts show at the same state. -/
theorem handleBlock_error_escapes_and_flag_leaks :
    (handleBlock ⟨false, true⟩
      { submittedOps := [1], refreshOutcome := .error "rpc failure",
        gasPriceOutcome := .ok ⟨0, 0⟩, gasReplaceOutcome := .ok (),
        stuckReplaceOutcome := .ok () } =
      (⟨true, true⟩, .error "rpc failure")) ∧
    (handleBlock ⟨true, true⟩
      { submittedOps := [1], refreshOutcome := .error "rpc failure",
        gasPriceOutcome := .ok ⟨0, 0⟩, gasReplaceOutcome := .ok (),
        stuckReplaceOutcome := .ok () } =
      (⟨true, true⟩, .ok ())) ∧
    (handleBlock ⟨false, true⟩
      { submittedOps := [], refreshOutcome := .ok (),
        gasPriceOutcome := .ok ⟨0, 0⟩, gasReplaceOutcome := .ok (),
        stuckReplaceOutcome := .ok () } =
      (⟨false, false⟩, .ok ())) ∧
    (handleBlock ⟨false, true⟩
      { submittedOps := [1], refreshOutcome := .ok (),
        gasPriceOutcome := .ok ⟨0, 0⟩, gasReplaceOutcome := .ok (),
        stuckReplaceOutcome := .ok () } =
      (⟨false, true⟩, .ok ())) := ⟨rfl, rfl, rfl, rfl⟩

/-- Claim C3: when the finalized status of a transaction resolves to
reverted with `isAA95`, `refreshTransactionStatus` bumps
`transactionRequest.gas` to `gas * aa95ResubmitMultiplier / 100` (integer
division), increments `transactionRequest.nonce` by one, emits a
`removeSubmitted` for every bundled op, and only after those removals
invokes `replaceTransaction` with reason `"AA95"`. -/
theorem refresh_aa95_bumps_and_replaces (mult : Nat)
    (statusOf : Nat → BundlingStatus) (t : TransactionInfo) (h : Nat)
    (r : Option String)
    (hfin : finalizedTransaction statusOf t = some (h, .reverted true r)) :
    (refreshTransactionStatus mult statusOf t).1.transactionRequest.gas =
      t.transactionRequest.gas * mult / 100 ∧
    (refreshTransactionStatus mult statusOf t).1.transactionRequest.nonce =
      t.transactionRequest.nonce + 1 ∧
    (refreshTransactionStatus mult statusOf t).2 =
      Effect.metricOnChain "reverted" t.userOperationInfos.length ::
        (t.userOperationInfos.map fun o => Effect.removeSubmitted o.userOperationHash) ++
        [Effect.callReplace t.transactionHash "AA95"] := by
  unfold refreshTransactionStatus
  rw [hfin]
  simp [refreshAct, bundlingStatusTag]

/-- Witness for C3: gas 1000 with multiplier 125 becomes exactly 1250 and
nonce 7 becomes 8, with the op removed from `submitted` before the
`"AA95"` replace call. -/
theorem refresh_aa95_bumps_and_replaces_witness :
    (refreshTransactionStatus 125 (fun _ => .reverted true none)
      { transactionHash := 40, previousTransactionHashes := [],
        transactionRequest := ⟨1000, 7, 5, 2⟩,
        userOperationInfos := [⟨1, 10, 0⟩],
        executor := 9, lastReplaced := 0,
        timesPotentiallyIncluded := 0 }).1.transactionRequest.gas = 1250 ∧
    (refreshTransactionStatus 125 (fun _ => .reverted true none)
      { transactionHash := 40, previousTransactionHashes := [],
        transactionRequest := ⟨1000, 7, 5, 2⟩,
        userOperationInfos := [⟨1, 10, 0⟩],
        executor := 9, lastReplaced := 0,
        timesPotentiallyIncluded := 0 }).1.transactionRequest.nonce = 8 ∧
    (refreshTransactionStatus 125 (fun _ => .reverted true none)
      { transactionHash := 40, previousTransactionHashes := [],
        transactionRequest := ⟨1000, 7, 5, 2⟩,
        userOperationInfos := [⟨1, 10, 0⟩],
        executor := 9, lastReplaced := 0,
        timesPotentiallyIncluded := 0 }).2 =
      [Effect.metricOnChain "reverted" 1, Effect.removeSubmitted 1,
       Effect.callReplace 40 "AA95"] := by
  have hthm := refresh_aa95_bumps_and_replaces 125 (fun _ => .reverted true none)
    { transactionHash := 40, previousTransactionHashes := [],
      transactionRequest := ⟨1000, 7, 5, 2⟩,
      userOperationInfos := [⟨1, 10, 0⟩],
      executor := 9, lastReplaced := 0,
      timesPotentiallyIncluded := 0 } 40 none rfl
  refine ⟨by simpa using hthm.1, by simpa using hthm.2.1, by simpa using hthm.2.2⟩

/-- Helper: `List.find?` returns the element at the first index whose
predicate holds. -/
theorem find?_first {α : Type} (p : α → Bool) (l : List α) (i : Nat)
    (hi : i < l.length) (hp : p (l.get ⟨i, hi⟩) = true)
    (hfirst : ∀ j (hj : j < i), p (l.get ⟨j, by omega⟩) = false) :
    l.find? p = some (l.get ⟨i, hi⟩) := by
  induction l generalizing i with
  | nil => simp at hi
  | cons a tl ih =>
    cases i with
    | zero =>
      simp only [List.get] at hp ⊢
      exact List.find?_cons_of_pos _ hp
    | succ k =>
      have ha : p a = false := hfirst 0 (Nat.succ_pos k)
      rw [List.find?_cons_of_neg _ (by simp [ha])]
      exact ih k (by simpa using hi) (by simpa using hp)
        (fun j hj => by simpa using hfirst (j + 1) (by omega))

/-- Claim C7: the candidate hash set of `refreshTransactionStatus` is the
current hash followed by the previous hashes; the post-resolution
classification is deterministic: the first `included` candidate is
selected even when some candidate is `reverted`, otherwise the first
`reverted` candidate, and with neither the function only logs each op as
pending and leaves the transaction unchanged. -/
theorem refresh_selection_deterministic (mult : Nat)
    (statusOf : Nat → BundlingStatus) (t : TransactionInfo) :
    (txHashesToCheck t = t.transactionHash :: t.previousTransactionHashes) ∧
    (∀ i (hi : i < (transactionDetails statusOf t).length),
      isIncludedStatus ((transactionDetails statusOf t).get ⟨i, hi⟩).2 = true →
      (∀ j (hj : j < i),
        isIncludedStatus ((transactionDetails statusOf t).get ⟨j, by omega⟩).2 = false) →
      finalizedTransaction statusOf t =
        some ((transactionDetails statusOf t).get ⟨i, hi⟩)) ∧
    ((∀ d ∈ transactionDetails statusOf t, isIncludedStatus d.2 = false) →
      ∀ i (hi : i < (transactionDetails statusOf t).length),
      isRevertedStatus ((transactionDetails statusOf t).get ⟨i, hi⟩).2 = true →
      (∀ j (hj : j < i),
        isRevertedStatus ((transactionDetails statusOf t).get ⟨j, by omega⟩).2 = false) →
      finalizedTransaction statusOf t =
        some ((transactionDetails statusOf t).get ⟨i, hi⟩)) ∧
    ((∀ d ∈ transactionDetails statusOf t,
        isIncludedStatus d.2 = false ∧ isRevertedStatus d.2 = false) →
      refreshTransactionStatus mult statusOf t =
        (t, t.userOperationInfos.map fun o => Effect.logPending o.userOperationHash)) := by
  refine ⟨rfl, ?_, ?_, ?_⟩
  · intro i hi hinc hfirst
    have hf := find?_first (fun d => isIncludedStatus d.2)
      (transactionDetails statusOf t) i hi hinc hfirst
    unfold finalizedTransaction
    rw [hf]
    rfl
  · intro hnone i hi hrev hfirst
    have h1 : (transactionDetails statusOf t).find?
        (fun d => isIncludedStatus d.2) = none :=
      List.find?_eq_none.mpr (fun x hx => by simp [hnone x hx])
    have hf := find?_first (fun d => isRevertedStatus d.2)
      (transactionDetails statusOf t) i hi hrev hfirst
    unfold finalizedTransaction
    rw [h1, hf]
    rfl
  · intro hboth
    have h1 : (transactionDetails statusOf t).find?
        (fun d => isIncludedStatus d.2) = none :=
      List.find?_eq_none.mpr (fun x hx => by simp [(hboth x hx).1])
    have h2 : (transactionDetails statusOf t).find?
        (fun d => isRevertedStatus d.2) = none :=
      List.find?_eq_none.mpr (fun x hx => by simp [(hboth x hx).2])
    unfold refreshTransactionStatus finalizedTransaction
    rw [h1, h2]
    rfl

/-- Witness for C7 at concrete candidates: with the current hash 40
reverted and the previous hash 41 included, the included candidate wins;
with only a reverted candidate it is selected; with all candidates
pending the ops are logged pending and the transaction is untouched. -/
theorem refresh_selection_deterministic_witness :
    (isIncludedStatus (((finalizedTransaction
      (fun h => if h == 41 then
          .included (fun _ => ⟨"succesful", false, none⟩)
        else .reverted false none)
      { transactionHash := 40, previousTransactionHashes := [41],
        transactionRequest := ⟨1000, 7, 5, 2⟩,
        userOperationInfos := [⟨1, 10, 0⟩],
        executor := 9, lastReplaced := 0,
        timesPotentiallyIncluded := 0 }).getD (0, .notFound)).2) = true) ∧
    (finalizedTransaction (fun h => if h == 41 then .reverted true none else .notFound)
      { transactionHash := 40, previousTransactionHashes := [41],
        transactionRequest := ⟨1000, 7, 5, 2⟩,
        userOperationInfos := [⟨1, 10, 0⟩],
        executor := 9, lastReplaced := 0,
        timesPotentiallyIncluded := 0 } = some (41, .reverted true none)) ∧
    (refreshTransactionStatus 125 (fun _ => .notFound)
      { transactionHash := 40, previousTransactionHashes := [41],
        transactionRequest := ⟨1000, 7, 5, 2⟩,
        userOperationInfos := [⟨1, 10, 0⟩],
        executor := 9, lastReplaced := 0,
        timesPotentiallyIncluded := 0 } =
      ({ transactionHash := 40, previousTransactionHashes := [41],
         transactionRequest := ⟨1000, 7, 5, 2⟩,
         userOperationInfos := [⟨1, 10, 0⟩],
         executor := 9, lastReplaced := 0,
         timesPotentiallyIncluded := 0 }, [Effect.logPending 1])) := by
  refine ⟨?_, ?_, ?_⟩
  · have heq := (refresh_selection_deterministic 125
      (fun h => if h == 41 then
          BundlingStatus.included (fun _ => ⟨"succesful", false, none⟩)
        else BundlingStatus.reverted false none)
      { transactionHash := 40, previousTransactionHashes := [41],
        transactionRequest := ⟨1000, 7, 5, 2⟩,
        userOperationInfos := [⟨1, 10, 0⟩],
        executor := 9, lastReplaced := 0,
        timesPotentiallyIncluded := 0 }).2.1 1 (by
          simp [transactionDetails, txHashesToCheck]) rfl
      (by
        intro j hj
        interval_cases j
        rfl)
    rw [heq]
    rfl
  · have heq := (refresh_selection_deterministic 125
      (fun h => if h == 41 then BundlingStatus.reverted true none else BundlingStatus.notFound)
      { transactionHash := 40, previousTransactionHashes := [41],
        transactionRequest := ⟨1000, 7, 5, 2⟩,
        userOperationInfos := [⟨1, 10, 0⟩],
        executor := 9, lastReplaced := 0,
        timesPotentiallyIncluded := 0 }).2.2.1 (by
          intro d hd
          rcases List.mem_cons.mp hd with rfl | hd2
          · rfl
          · rcases List.mem_cons.mp hd2 with rfl | h3
            · rfl
            · simp at h3)
      1 (by simp [transactionDetails, txHashesToCheck]) rfl
      (by
        intro j hj
        interval_cases j
        rfl)
    rw [heq]
    rfl
  · exact (refresh_selection_deterministic 125 (fun _ => BundlingStatus.notFound)
      { transactionHash := 40, previousTransactionHashes := [41],
        transactionRequest := ⟨1000, 7, 5, 2⟩,
        userOperationInfos := [⟨1, 10, 0⟩],
        executor := 9, lastReplaced := 0,
        timesPotentiallyIncluded := 0 }).2.2.2 (by
          intro d hd
          rcases List.mem_cons.mp hd with rfl | hd2
          · exact ⟨rfl, rfl⟩
          · rcases List.mem_cons.mp hd2 with rfl | h3
            · exact ⟨rfl, rfl⟩
            · simp at h3)

/-- Helper: the head of a list is its last element unless the tail has
one. -/
theorem getLast?_cons_or {α : Type} (a : α) (xs : List α) :
    (a :: xs).getLast? = xs.getLast?.or (some a) := by
  induction xs generalizing a with
  | nil => rfl
  | cons b t ih =>
    rw [List.getLast?_cons_cons, ih b]
    cases h : t.getLast? with
    | none => rfl
    | some v => rfl

/-- Helper: the first component of `sendLoop` is the hash of the last
`success` result, falling back to the accumulator. -/
theorem sendLoop_fst (l : List BundleResult) :
    ∀ acc, (sendLoop acc l).1 = ((l.filterMap successTxHash).getLast?).or acc := by
  induction l with
  | nil => intro acc; rfl
  | cons r rest ih =>
    intro acc
    cases r with
    | success opHash h =>
      show (sendLoop (some h) rest).1 = _
      rw [ih (some h)]
      have : (BundleResult.success opHash h :: rest).filterMap successTxHash =
          h :: rest.filterMap successTxHash := by
        simp [successTxHash]
      rw [this, getLast?_cons_or, Option.or_assoc]
      rfl
    | failure opHash reason =>
      show (sendLoop acc rest).1 = _
      rw [ih acc]
      have : (BundleResult.failure opHash reason :: rest).filterMap successTxHash =
          rest.filterMap successTxHash := by
        simp [successTxHash]
      rw [this]
    | resubmit opHash ep reason =>
      show (sendLoop acc rest).1 = _
      rw [ih acc]
      have : (BundleResult.resubmit opHash ep reason :: rest).filterMap successTxHash =
          rest.filterMap successTxHash := by
        simp [successTxHash]
      rw [this]

/-- Helper: every effect of a result in the list appears in the loop's
effect list. -/
theorem mem_sendLoop_effects (e : Effect) (r : BundleResult)
    (l : List BundleResult) :
    ∀ acc, r ∈ l → e ∈ resultEffects r → e ∈ (sendLoop acc l).2 := by
  induction l with
  | nil => intro acc hr; simp at hr
  | cons a t ih =>
    intro acc hr he
    rcases List.mem_cons.mp hr with rfl | ht
    · exact List.mem_append.mpr (Or.inl he)
    · exact List.mem_append.mpr (Or.inr (ih _ ht he))

/-- Claim C9: `sendToExecutor` returns the transaction hash of the last
executor result with status `success` in the flattened result list and
`none` when no result succeeded; consequently `bundleNow` raises
`"no tx hash"` for an entry point whose ops all came back `failure` or
`resubmit`, even though every `resubmit` op was re-queued into the
mempool. -/
theorem sendToExecutor_last_success_hash (opsCount : Nat)
    (bundles : List (List BundleResult)) :
    ((sendToExecutor opsCount bundles).1 =
      (bundles.flatten.filterMap successTxHash).getLast?) ∧
    ((∀ r ∈ bundles.flatten, isSuccessResult r = false) →
      bundleNowEntryPointOutcome opsCount bundles = .error "no tx hash") ∧
    (∀ opHash ep reason,
      BundleResult.resubmit opHash ep reason ∈ bundles.flatten →
      Effect.addToMempool opHash ep ∈ (sendToExecutor opsCount bundles).2) := by
  have hfst : (sendToExecutor opsCount bundles).1 =
      (bundles.flatten.filterMap successTxHash).getLast? := by
    show (sendLoop none bundles.flatten).1 = _
    rw [sendLoop_fst bundles.flatten none, Option.or_none]
  refine ⟨hfst, ?_, ?_⟩
  · intro hno
    have hnil : bundles.flatten.filterMap successTxHash = [] := by
      rw [List.filterMap_eq_nil_iff]
      intro r hr
      have := hno r hr
      cases r with
      | success _ _ => simp [isSuccessResult] at this
      | failure _ _ => rfl
      | resubmit _ _ _ => rfl
    unfold bundleNowEntryPointOutcome
    rw [hfst, hnil]
    rfl
  · intro opHash ep reason hmem
    have he : Effect.addToMempool opHash ep ∈
        resultEffects (BundleResult.resubmit opHash ep reason) := by
      simp [resultEffects]
    have hl := mem_sendLoop_effects (Effect.addToMempool opHash ep)
      (BundleResult.resubmit opHash ep reason) bundles.flatten none hmem he
    show Effect.addToMempool opHash ep ∈ _ ++ _ ++ (sendLoop none bundles.flatten).2
    exact List.mem_append.mpr (Or.inr hl)

/-- Witness for C9: one bundle whose two results are a failure and a
resubmit yields no transaction hash, the `"no tx hash"` error, and an
`addToMempool` re-queue effect for the resubmitted op. -/
theorem sendToExecutor_last_success_hash_witness :
    (sendToExecutor 2 [[BundleResult.failure 1 "AA21",
        BundleResult.resubmit 2 10 "nonce conflict"]]).1 = none ∧
    bundleNowEntryPointOutcome 2 [[BundleResult.failure 1 "AA21",
        BundleResult.resubmit 2 10 "nonce conflict"]] = .error "no tx hash" ∧
    Effect.addToMempool 2 10 ∈ (sendToExecutor 2 [[BundleResult.failure 1 "AA21",
        BundleResult.resubmit 2 10 "nonce conflict"]]).2 := by
  have h := sendToExecutor_last_success_hash 2
    [[BundleResult.failure 1 "AA21", BundleResult.resubmit 2 10 "nonce conflict"]]
  refine ⟨by simpa using h.1, h.2.1 (by decide), h.2.2 2 10 "nonce conflict" (by decide)⟩

/-- Claim C10: in both `bundle()` and `bundleNow()` the mempool batch is
partitioned by each op's own entry-point address but dispatch iterates
only the configured `entryPoints` list, so an op whose entry point is not
configured is never part of any dispatched op set, and the only other
outcome of the iteration is a warning naming a configured entry point
with no ops — nothing references the op itself. -/
theorem unconfigured_entry_point_op_left_behind (entryPoints : List Nat)
    (o : UserOpInfo) (h2 : o.entryPoint ∉ entryPoints) :
    (∀ ops ep sent,
      DispatchEffect.dispatched ep sent ∈ dispatchTick entryPoints ops →
      o ∉ sent) ∧
    (∀ batches ep sent,
      DispatchEffect.dispatched ep sent ∈ bundleTick entryPoints batches →
      o ∉ sent) ∧
    (∀ ops ep, DispatchEffect.warnNoOps ep ∈ dispatchTick entryPoints ops →
      ep ∈ entryPoints ∧ opsForEntryPoint ops ep = []) := by
  have hdisp : ∀ ops ep sent,
      DispatchEffect.dispatched ep sent ∈ dispatchTick entryPoints ops →
      o ∉ sent := by
    intro ops ep sent hmem hos
    obtain ⟨ep', hep', heq⟩ := List.mem_map.mp hmem
    by_cases hempty : (opsForEntryPoint ops ep').isEmpty
    · rw [if_pos hempty] at heq
      exact absurd heq (by simp)
    · rw [if_neg hempty] at heq
      obtain ⟨rfl, rfl⟩ : ep' = ep ∧ opsForEntryPoint ops ep' = sent := by
        constructor <;> cases heq <;> rfl
      have hbe : (o.entryPoint == ep') = true := (List.mem_filter.mp hos).2
      have heq2 : o.entryPoint = ep' := by simpa using hbe
      exact h2 (heq2 ▸ hep')
  refine ⟨hdisp, ?_, ?_⟩
  · intro batches ep sent hmem
    obtain ⟨ops, _, hd⟩ := List.mem_flatMap.mp hmem
    exact hdisp ops ep sent hd
  · intro ops ep hmem
    obtain ⟨ep', hep', heq⟩ := List.mem_map.mp hmem
    by_cases hempty : (opsForEntryPoint ops ep').isEmpty
    · rw [if_pos hempty] at heq
      cases heq
      exact ⟨hep', List.isEmpty_iff.mp hempty⟩
    · rw [if_neg hempty] at heq
      exact absurd heq (by simp)

/-- Witness for C10: with configured entry point 10, an op targeting
entry point 99 is absent from the only dispatched op set of the tick. -/
theorem unconfigured_entry_point_op_left_behind_witness :
    dispatchTick [10] [⟨5, 99, 0⟩, ⟨6, 10, 0⟩] =
      [DispatchEffect.dispatched 10 [⟨6, 10, 0⟩]] ∧
    (⟨5, 99, 0⟩ : UserOpInfo) ∉ [(⟨6, 10, 0⟩ : UserOpInfo)] := by
  refine ⟨by decide, ?_⟩
  exact (unconfigured_entry_point_op_left_behind [10] ⟨5, 99, 0⟩ (by decide)).1
    [⟨5, 99, 0⟩, ⟨6, 10, 0⟩] 10 [⟨6, 10, 0⟩] (by decide)

/-- Helper: once `endIndex` is set (not `-1`), logs that are not our
`UserOperationEvent` leave the scan state unchanged. -/
theorem scanAux_after (opTopic ourHash : Nat) (post : List RLog) :
    ∀ i si ei, (ei == (-1 : Int)) = false →
    (∀ x ∈ post, isOurEvent opTopic ourHash x = false) →
    scanAux opTopic ourHash i si ei post = (si, ei) := by
  induction post with
  | nil => intro i si ei _ _; rfl
  | cons l t ih =>
    intro i si ei hei hpost
    have hl : isOurEvent opTopic ourHash l = false := hpost l (List.mem_cons_self l t)
    have ht : ∀ x ∈ t, isOurEvent opTopic ourHash x = false :=
      fun x hx => hpost x (List.mem_cons_of_mem l hx)
    by_cases h0 : (l.topics.head? == some opTopic) = true
    · have h1 : (l.topics[1]? == some ourHash) = false := by
        unfold isOurEvent at hl
        rw [h0] at hl
        simpa using hl
      simp only [scanAux]
      rw [if_pos h0, if_neg (by simp [h1]), if_neg (by simp [hei])]
      exact ih (i + 1) si ei hei ht
    · simp only [scanAux]
      rw [if_neg h0]
      exact ih (i + 1) si ei hei ht

/-- Helper: scanning a prefix without our event, then our event, then a
suffix without it, yields `startIndex` = last different-hash op event of
the prefix and `endIndex` = the event's position. -/
theorem scanAux_split (opTopic ourHash : Nat) (pre : List RLog) (l : RLog)
    (post : List RLog) (hl : isOurEvent opTopic ourHash l = true)
    (hpost : ∀ x ∈ post, isOurEvent opTopic ourHash x = false) :
    ∀ i si, (∀ x ∈ pre, isOurEvent opTopic ourHash x = false) →
    scanAux opTopic ourHash i si (-1) (pre ++ l :: post) =
      (lastOtherOpIndex opTopic ourHash i si pre, ((i + pre.length : Nat) : Int)) := by
  induction pre with
  | nil =>
    intro i si _
    have hand : (l.topics.head? == some opTopic) = true ∧
        (l.topics[1]? == some ourHash) = true := by
      unfold isOurEvent at hl
      rw [Bool.and_eq_true] at hl
      exact hl
    simp only [List.nil_append, scanAux]
    rw [if_pos hand.1, if_pos hand.2]
    rw [scanAux_after opTopic ourHash post (i + 1) si (i : Int)
      (by rw [beq_eq_false_iff_ne]; omega) hpost]
    simp [lastOtherOpIndex]
  | cons x pre' ih =>
    intro i si hpre
    have hx : isOurEvent opTopic ourHash x = false := hpre x (List.mem_cons_self x pre')
    have hpre' : ∀ y ∈ pre', isOurEvent opTopic ourHash y = false :=
      fun y hy => hpre y (List.mem_cons_of_mem x hy)
    have hlen : i + (x :: pre').length = i + 1 + pre'.length := by
      simp [List.length_cons]
      omega
    by_cases h0 : (x.topics.head? == some opTopic) = true
    · have h1 : (x.topics[1]? == some ourHash) = false := by
        unfold isOurEvent at hx
        rw [h0] at hx
        simpa using hx
      have hox : isOtherOpEvent opTopic ourHash x = true := by
        unfold isOtherOpEvent
        rw [h0, h1]
        rfl
      show scanAux opTopic ourHash i si (-1) (x :: (pre' ++ l :: post)) = _
      simp only [scanAux]
      rw [if_pos h0, if_neg (by simp [h1]), if_pos (by decide)]
      rw [ih (i + 1) (i : Int) hpre']
      simp only [lastOtherOpIndex, hox, if_pos]
      rw [hlen]
    · have h0' : (x.topics.head? == some opTopic) = false := by
        simpa using h0
      have hox : isOtherOpEvent opTopic ourHash x = false := by
        unfold isOtherOpEvent
        rw [h0']
        rfl
      show scanAux opTopic ourHash i si (-1) (x :: (pre' ++ l :: post)) = _
      simp only [scanAux]
      rw [if_neg h0]
      rw [ih (i + 1) si hpre']
      simp only [lastOtherOpIndex, hox]
      rw [hlen]
      simp

/-- Claim C6 (amended): when the receipt's logs consist of a prefix
without our `UserOperationEvent`, that event, and a suffix without it,
the scan computes `endIndex` = the event's index and `startIndex` = the
most recent prior `UserOperationEvent` with a different hash (`-1` if
none), and the attributed logs are exactly
`logs[startIndex + 1 .. endIndex]` — all prefix logs after `startIndex`;
the slice is empty when the event is the first log of the receipt. -/
theorem receipt_log_slice_bounds (opTopic ourHash : Nat) (pre post : List RLog)
    (l : RLog) (hl : isOurEvent opTopic ourHash l = true)
    (hpre : ∀ x ∈ pre, isOurEvent opTopic ourHash x = false)
    (hpost : ∀ x ∈ post, isOurEvent opTopic ourHash x = false) :
    scanIndices opTopic ourHash (pre ++ l :: post) =
      (lastOtherOpIndex opTopic ourHash 0 (-1) pre, (pre.length : Int)) ∧
    filteredLogs opTopic ourHash (pre ++ l :: post) =
      pre.drop ((lastOtherOpIndex opTopic ourHash 0 (-1) pre) + 1).toNat ∧
    (pre = [] → filteredLogs opTopic ourHash (pre ++ l :: post) = []) := by
  have hscan : scanIndices opTopic ourHash (pre ++ l :: post) =
      (lastOtherOpIndex opTopic ourHash 0 (-1) pre, (pre.length : Int)) := by
    unfold scanIndices
    simpa using scanAux_split opTopic ourHash pre l post hl hpost 0 (-1) hpre
  have htake : (pre ++ l :: post).take ((pre.length : Int)).toNat = pre := by
    have hn : ((pre.length : Int)).toNat = pre.length := Int.toNat_natCast pre.length
    rw [hn]
    exact List.take_left pre (l :: post)
  refine ⟨hscan, ?_, ?_⟩
  · unfold filteredLogs
    rw [hscan]
    exact congrArg _ htake
  · intro hpre0
    subst hpre0
    unfold filteredLogs
    rw [hscan]
    rfl

/-- Witness for the amended C6: prefix = one plain log and one
different-hash op event at index 1, our event at index 2: the scan yields
`(1, 2)` and the slice is empty; with empty prefix the slice is empty. -/
theorem receipt_log_slice_bounds_witness :
    scanIndices 5 9 [⟨[7], 1, 0⟩, ⟨[5, 8], 1, 0⟩, ⟨[5, 9], 2, 0⟩] = (1, 2) ∧
    filteredLogs 5 9 [⟨[7], 1, 0⟩, ⟨[5, 8], 1, 0⟩, ⟨[5, 9], 2, 0⟩] = [] ∧
    filteredLogs 5 9 [⟨[5, 9], 2, 0⟩, ⟨[7], 1, 0⟩] = [] := by
  have h1 := receipt_log_slice_bounds 5 9 [⟨[7], 1, 0⟩, ⟨[5, 8], 1, 0⟩]
    [] ⟨[5, 9], 2, 0⟩ (by decide) (by decide) (by decide)
  have h2 := receipt_log_slice_bounds 5 9 [] [⟨[7], 1, 0⟩] ⟨[5, 9], 2, 0⟩
    (by decide) (by decide) (by decide)
  refine ⟨?_, ?_, h2.2.2 rfl⟩
  · show scanIndices 5 9 ([⟨[7], 1, 0⟩, ⟨[5, 8], 1, 0⟩] ++ [⟨[5, 9], 2, 0⟩]) = (1, 2)
    rw [h1.1]
    rfl
  · show filteredLogs 5 9 ([⟨[7], 1, 0⟩, ⟨[5, 8], 1, 0⟩] ++ [⟨[5, 9], 2, 0⟩]) = []
    rw [h1.2.1]
    rfl

/-- Claim C6 (counterexample): a transaction whose only user operation's
`UserOperationEvent` sits at index 1, after one plain (non-op-event) log,
is "the very first and only op in the transaction", yet the attributed
logs slice is `[the plain log]`, not empty. -/
theorem receipt_log_slice_first_op_counterexample :
    isOurEvent 5 9 ⟨[5, 9], 2, 0⟩ = true ∧
    isOurEvent 5 9 ⟨[7], 1, 0⟩ = false ∧
    isOtherOpEvent 5 9 ⟨[7], 1, 0⟩ = false ∧
    filteredLogs 5 9 [⟨[7], 1, 0⟩, ⟨[5, 9], 2, 0⟩] = [⟨[7], 1, 0⟩] ∧
    filteredLogs 5 9 [⟨[7], 1, 0⟩, ⟨[5, 9], 2, 0⟩] ≠ [] := by decide

/-- Claim C8 (amended): the receipt fetch skips any number of
`receipt-not-found` outcomes and only those; any other error (also one of
the `getTransaction` fallback) propagates; a receipt without
`effectiveGasPrice` is back-filled from the receipt's own raw `gasPrice`
field when present, and only when that is also absent from the
transaction's `gasPrice` (non-zero values are written). -/
theorem receipt_fetch_retry_and_backfill (getTx : Except String TransactionM)
    (n : Nat) (rest : List ReceiptCallResult) (e : String)
    (r : TransactionReceiptM) (tx : TransactionM) (g : Nat) :
    (fetchReceipt getTx (List.replicate n .notFound ++ rest) =
      fetchReceipt getTx rest) ∧
    (fetchReceipt getTx (.failure e :: rest) = some (.error e)) ∧
    (r.effectiveGasPrice = none → r.gasPrice = some g → g ≠ 0 →
      fetchReceipt getTx (.found r :: rest) =
        some (.ok { r with effectiveGasPrice := some g })) ∧
    (r.effectiveGasPrice = none → r.gasPrice = none →
      fetchReceipt (.error e) (.found r :: rest) = some (.error e)) ∧
    (r.effectiveGasPrice = none → r.gasPrice = none → tx.gasPrice = some g →
      g ≠ 0 →
      fetchReceipt (.ok tx) (.found r :: rest) =
        some (.ok { r with effectiveGasPrice := some g })) := by
  refine ⟨?_, rfl, ?_, ?_, ?_⟩
  · induction n with
    | zero => rfl
    | succ k ih =>
      rw [List.replicate_succ, List.cons_append]
      exact ih
  · intro h1 h2 h3
    simp only [fetchReceipt, h1, h2]
    rw [if_pos (by simpa using h3)]
  · intro h1 h2
    simp only [fetchReceipt, h1, h2]
  · intro h1 h2 h3 h4
    simp only [fetchReceipt, h1, h2, h3]
    rw [if_pos (by simpa using h4)]

/-- Witness for the amended C8 at concrete inputs: two not-found retries
are skipped, an error propagates, a receipt with raw gasPrice 5 is
back-filled to 5, and a receipt with no gasPrice falls back to the
transaction's gasPrice 7. -/
theorem receipt_fetch_retry_and_backfill_witness :
    (fetchReceipt (.ok ⟨some 7⟩)
      (List.replicate 2 .notFound ++ [.found ⟨none, some 5, true⟩]) =
      fetchReceipt (.ok ⟨some 7⟩) [.found ⟨none, some 5, true⟩]) ∧
    (fetchReceipt (.ok ⟨some 7⟩) [.failure "connection reset"] =
      some (.error "connection reset")) ∧
    (fetchReceipt (.ok ⟨some 7⟩) [.found ⟨none, some 5, true⟩] =
      some (.ok ⟨some 5, some 5, true⟩)) ∧
    (fetchReceipt (.error "boom") [.found ⟨none, none, true⟩] =
      some (.error "boom")) ∧
    (fetchReceipt (.ok ⟨some 7⟩) [.found ⟨none, none, true⟩] =
      some (.ok ⟨some 7, none, true⟩)) := by
  have ha := receipt_fetch_retry_and_backfill (.ok ⟨some 7⟩) 2
    [.found ⟨none, some 5, true⟩] "connection reset" ⟨none, some 5, true⟩ ⟨some 7⟩ 5
  have hb := receipt_fetch_retry_and_backfill (.ok ⟨some 7⟩) 0
    [.found ⟨none, none, true⟩] "boom" ⟨none, none, true⟩ ⟨some 7⟩ 7
  exact ⟨ha.1, ha.2.1, ha.2.2.1 rfl rfl (by decide), hb.2.2.2.1 rfl rfl,
    hb.2.2.2.2 rfl rfl rfl (by decide)⟩

/-- Claim C8 (counterexample): a receipt that omits `effectiveGasPrice`
but carries a raw `gasPrice` of 5 is back-filled with 5 even though the
transaction's `gasPrice` is 7 — the back-fill is not taken from the
transaction. -/
theorem receipt_backfill_counterexample :
    fetchReceipt (.ok ⟨some 7⟩) [.found ⟨none, some 5, true⟩] =
      some (.ok ⟨some 5, some 5, true⟩) ∧
    (⟨none, some 5, true⟩ : TransactionReceiptM).effectiveGasPrice = none ∧
    (⟨some 7⟩ : TransactionM).gasPrice = some 7 ∧
    (⟨some 5, some 5, true⟩ : TransactionReceiptM).effectiveGasPrice ≠ some 7 := by
  exact ⟨rfl, rfl, rfl, by decide⟩

end Alto
